import Mathlib

/-!
# mx-chain-notifier-go: websocket dispatcher, lock-service factory, event notifier

A shallow embedding of

* `dispatcher/ws/wsDispatcher.go` (namespace `ws`),
* `factory/redis.go` (namespace `factory`),
* `eventNotifier.go` (namespace `notifier`),

followed by the theorems about them.

Conventions of the embedding.

* A `[]byte` is a list of bytes, `Fin 256` each.
* A Go `error` is its message; `none` is the nil error.
* Calls on the connection, the hub, the ticker and the HTTP client, and the closing of the
  queue, are recorded in program order in a trace, each with the error it returned.  What a
  connection call returns is decided by the environment: an `Oracle` maps the trace so far
  and the call to the error returned.
* Calls to the logger change neither control flow nor any collaborator; they are left out of
  the traces.
-/

/-- A Go byte slice. -/
abbrev Bytes := List (Fin 256)

/-- A Go error value, identified by its message. -/
abbrev GoError := String

/-! ## Go channels of byte slices -/

/-- The state of a buffered Go channel `chan []byte`: pending elements in FIFO order (head is
the oldest), the capacity given to `make`, and whether `close` has been called. -/
structure Chan where
  buf : List Bytes
  cap : Nat
  closed : Bool
deriving DecidableEq, Repr

/-- What a send statement `c <- v` does when executed on a channel state. -/
inductive SendResult where
  /-- The value was put in the buffer; the statement completes. -/
  | sent (c : Chan)
  /-- The buffer is full: the sending goroutine is suspended until a receiver makes room. -/
  | blocks
  /-- The channel is closed: run-time panic "send on closed channel". -/
  | panics
deriving DecidableEq, Repr

/-- Go semantics of `c <- v` for a buffered channel. -/
def Chan.send (c : Chan) (v : Bytes) : SendResult :=
  if c.closed then SendResult.panics
  else if c.buf.length < c.cap then SendResult.sent { c with buf := c.buf ++ [v] }
  else SendResult.blocks

/-- Go semantics of `close(c)`: `none` is the run-time panic "close of closed channel". -/
def Chan.close (c : Chan) : Option Chan :=
  if c.closed then none else some { c with closed := true }

/-! ## Strings and the canonical event -/

/-- The conversion `string(b)` of a byte slice.  A Go string is a sequence of bytes; it is
held as a string with one character per byte, the character whose code is the byte. -/
def goString (b : Bytes) : String :=
  String.mk (b.map (fun v => Char.ofNat v.val))

namespace data

/-- Modelled from the spec: `data.Event` is declared outside the sources given; the spec has
`{address: string, identifier: string, topics: ordered sequence of byte-sequence,
data: byte-sequence}`.  The source sets the fields `Address`, `Identifier`, `Topics` and
`Data`. -/
structure Event where
  Address : String
  Identifier : String
  Topics : List Bytes
  Data : Bytes
deriving DecidableEq, Repr

/-- Modelled from the spec: `data.BlockEvents` is declared outside the sources given; the
spec has `{hash: hex-string, events: ordered sequence of Event}`.  The source sets the fields
`Hash` and `Events`. -/
structure BlockEvents where
  Hash : String
  Events : List Event
deriving DecidableEq, Repr

end data

namespace ws

open data

/-! ## Data model -/

/-- The type `uuid.UUID`, a 128-bit identifier. -/
abbrev UUID := Nat

/-- Modelled from the spec: the filter of a subscribe request, declared outside the sources
given; the spec has `{address: optional string, identifiers: set of string}`. -/
structure SubscriptionEntry where
  Address : Option String
  Identifiers : List String
deriving DecidableEq, Repr

/-- Modelled from the spec: `data.SubscribeEvent` is declared outside the sources given; the
spec has `{dispatcherID: identifier, filters: ordered sequence of SubscriptionFilter}`.
The source assigns its field `DispatcherID`. -/
structure SubscribeEvent where
  DispatcherID : UUID
  SubscriptionEntries : List SubscriptionEntry
deriving DecidableEq, Repr

/-- The library functions `wsDispatcher.go` calls and that are not part of the repository. -/
structure Lib where
  /-- The function `json.Marshal` on `[]data.Event`. -/
  jsonMarshal : List Event → Except GoError Bytes
  /-- The function `json.Unmarshal` into a zero `data.SubscribeEvent`: the decoded value, or
  the error. -/
  jsonUnmarshal : Bytes → Except GoError SubscribeEvent
  /-- The function `bytes.TrimSpace`. -/
  trimSpace : Bytes → Bytes

/-! ## Constants (`time.Duration` values are nanosecond counts) -/

/-- The constant `time.Second`. -/
def Second : Int := 1000000000

def writeWait : Int := 10 * Second
def pongWait : Int := 60 * Second
def pingPeriod : Int := (pongWait * 9) / 10
def maxMsgSize : Int := 1024 * 1024

def newline : Bytes := [10]
def space : Bytes := [32]

/-- The frame types of gorilla/websocket. -/
def TextMessage : Nat := 1
def CloseMessage : Nat := 8
def PingMessage : Nat := 9

/-! ## The dispatcher -/

/-- The fields of `websocketDispatcher` that are state of the dispatcher itself; `conn` and
`hub` are collaborators, seen through the effects below. -/
structure websocketDispatcher where
  id : UUID
  send : Chan
deriving DecidableEq, Repr

/-- The constructor; `id` is the value `uuid.New()` returns. -/
def newWebsocketDispatcher (id : UUID) : websocketDispatcher :=
  { id := id, send := { buf := [], cap := 256, closed := false } }

def GetID (wd : websocketDispatcher) : UUID := wd.id

/-- How a call of `PushEvents` ends. -/
inductive PushResult where
  /-- The call returned to its caller, leaving the dispatcher in this state. -/
  | returned (wd : websocketDispatcher)
  /-- The caller is suspended in `wd.send <- eventBytes`; the dispatcher is in this state. -/
  | blocked (wd : websocketDispatcher)
  /-- The call panicked in `wd.send <- eventBytes`. -/
  | panicked
deriving DecidableEq, Repr

/-- The method `PushEvents`. It calls neither the hub nor the connection. -/
def PushEvents (lib : Lib) (wd : websocketDispatcher) (events : List Event) : PushResult :=
  match lib.jsonMarshal events with
  | Except.error _ => PushResult.returned wd
  | Except.ok eventBytes =>
    match wd.send.send eventBytes with
    | SendResult.sent c => PushResult.returned { wd with send := c }
    | SendResult.blocks => PushResult.blocked wd
    | SendResult.panics => PushResult.panicked

/-! ## Calls on collaborators -/

/-- A call the dispatcher makes on its connection, its hub, its ticker or its queue. -/
inductive Call where
  | hubSubscribe (event : SubscribeEvent)
  /-- The call `hub.UnregisterEvent(wd)`, with the id of the dispatcher passed. -/
  | hubUnregisterEvent (id : UUID)
  | connClose
  /-- The call `conn.SetWriteDeadline(time.Now().Add(d))`. -/
  | connSetWriteDeadline (d : Int)
  /-- The call `conn.SetReadDeadline(time.Now().Add(d))`. -/
  | connSetReadDeadline (d : Int)
  | connSetReadLimit (limit : Int)
  /-- The call `conn.SetPongHandler(h)`, where `h` calls
  `conn.SetReadDeadline(time.Now().Add(d))`. -/
  | connSetPongHandler (d : Int)
  | connWriteMessage (messageType : Nat) (data : Bytes)
  | connNextWriter (messageType : Nat)
  /-- The call `writer.Write(data)` on the writer `conn.NextWriter` returned. -/
  | writerWrite (data : Bytes)
  | writerClose
  | connReadMessage
  /-- The statement `close(wd.send)`. -/
  | closeSend
  /-- The call `time.NewTicker(d)`. -/
  | newTicker (d : Int)
  | tickerStop
deriving DecidableEq, Repr

/-- A call together with the error it returned (`none` for nil, and for calls that return no
error). -/
structure Entry where
  call : Call
  err : Option GoError
deriving DecidableEq, Repr

abbrev Trace := List Entry

/-- The environment of a pump: the error a connection call returns, given the calls made so
far. -/
abbrev Oracle := Trace → Call → Option GoError

/-- Make a connection call. -/
def perform (conn : Oracle) (t : Trace) (c : Call) : Trace × Option GoError :=
  (t ++ [{ call := c, err := conn t c }], conn t c)

/-- Make a call that returns no error. -/
def record (t : Trace) (c : Call) : Trace :=
  t ++ [{ call := c, err := none }]

/-- How far a pump got. -/
inductive Status where
  /-- The pump returned, its deferred function included. -/
  | returned
  /-- The pump is in its loop, suspended until the environment delivers more. -/
  | waiting
  /-- The pump panicked. -/
  | panicked
deriving DecidableEq, Repr

/-! ## Socket limits -/

def setSocketWriteLimits (conn : Oracle) (t : Trace) : Trace × Option GoError :=
  match perform conn t (Call.connSetWriteDeadline writeWait) with
  | (t1, some err) => (t1, some err)
  | (t1, none) => (t1, none)

def setSocketReadLimits (conn : Oracle) (t : Trace) : Trace × Option GoError :=
  let t1 := record t (Call.connSetReadLimit maxMsgSize)
  match perform conn t1 (Call.connSetReadDeadline pongWait) with
  | (t2, some err) => (t2, some err)
  | (t2, none) => (record t2 (Call.connSetPongHandler pongWait), none)

/-! ## The write pump -/

/-- The case of the `select` in `writePump` that the environment makes ready. -/
inductive SelectCase where
  /-- The case `message, ok := <-wd.send`: `some message` is a batch taken from the queue
  (`ok` true); `none` is the receive on the closed and drained queue (`message` nil, `ok`
  false). -/
  | recv (m : Option Bytes)
  /-- The case `<-ticker.C`. -/
  | tick
deriving DecidableEq, Repr

/-- The closure `nextWriterWrap` of `writePump`. -/
def nextWriterWrap (conn : Oracle) (msgType : Nat) (data : Bytes) (t : Trace) :
    Trace × Option GoError :=
  match perform conn t (Call.connNextWriter msgType) with
  | (t1, some err) => (t1, some err)
  | (t1, none) =>
    match perform conn t1 (Call.writerWrite data) with
    | (t2, some err) => (t2, some err)
    | (t2, none) => perform conn t2 Call.writerClose

/-- The `for` loop of `writePump`, run on the cases the environment makes ready, in order.
The flag is true when the loop was left by `return`, false when the cases ran out with the
loop still going. -/
def writeLoop (conn : Oracle) : Trace → List SelectCase → Trace × Bool
  | t, [] => (t, false)
  | t, SelectCase.recv m :: rest =>
    match setSocketWriteLimits conn t with
    | (t1, some _) => (t1, true)
    | (t1, none) =>
      let ok := m.isSome
      let message := m.getD []
      let r := if !ok then perform conn t1 (Call.connWriteMessage CloseMessage [])
        else (t1, none)
      match r with
      | (t2, some _) => (t2, true)
      | (t2, none) =>
        match nextWriterWrap conn TextMessage message t2 with
        | (t3, some _) => (t3, true)
        | (t3, none) => writeLoop conn t3 rest
  | t, SelectCase.tick :: rest =>
    let t1 := (setSocketWriteLimits conn t).1
    match perform conn t1 (Call.connWriteMessage PingMessage []) with
    | (t2, some _) => (t2, true)
    | (t2, none) => writeLoop conn t2 rest

/-- A run of a pump that does not change the dispatcher. -/
structure WriteRun where
  trace : Trace
  status : Status
deriving DecidableEq, Repr

/-- The method `writePump`: ticker, loop, then the deferred function on return. -/
def writePump (conn : Oracle) (cases : List SelectCase) : WriteRun :=
  let t0 := record [] (Call.newTicker pingPeriod)
  match writeLoop conn t0 cases with
  | (t1, false) => { trace := t1, status := Status.waiting }
  | (t1, true) =>
    let t2 := record t1 Call.tickerStop
    let t3 := (perform conn t2 Call.connClose).1
    { trace := t3, status := Status.returned }

/-! ## The read pump -/

/-- The library function `bytes.Replace(s, old, new, -1)`, for the one-byte `old` the source
passes: every occurrence of the byte is replaced by `new`. -/
def bytesReplace (s old new : Bytes) : Bytes :=
  match old with
  | [o] => s.flatMap (fun b => if b = o then new else [b])
  | _ => s

def trySendSubscribeEvent (lib : Lib) (wd : websocketDispatcher) (eventBytes : Bytes)
    (t : Trace) : Trace :=
  match lib.jsonUnmarshal eventBytes with
  | Except.error _ => t
  | Except.ok subscribeEvent =>
    record t (Call.hubSubscribe { subscribeEvent with DispatcherID := wd.id })

/-- The `for` loop of `readPump`, run on the results `conn.ReadMessage` returns, in order.
The flag is true when the loop was left by `break`, false when the results ran out with the
loop still going. -/
def readLoop (lib : Lib) (wd : websocketDispatcher) :
    Trace → List (Except GoError Bytes) → Trace × Bool
  | t, [] => (t, false)
  | t, Except.error innerErr :: _ =>
    (t ++ [{ call := Call.connReadMessage, err := some innerErr }], true)
  | t, Except.ok msg :: rest =>
    let t1 := t ++ [{ call := Call.connReadMessage, err := none }]
    let msg1 := lib.trimSpace (bytesReplace msg newline space)
    readLoop lib wd (trySendSubscribeEvent lib wd msg1 t1) rest

/-- A run of `readPump`, with the dispatcher it leaves. -/
structure ReadRun where
  trace : Trace
  status : Status
  wd : websocketDispatcher
deriving DecidableEq, Repr

/-- The method `readPump`: read limits, loop, then the deferred function on return. -/
def readPump (lib : Lib) (conn : Oracle) (wd : websocketDispatcher)
    (reads : List (Except GoError Bytes)) : ReadRun :=
  let t0 := (setSocketReadLimits conn []).1
  match readLoop lib wd t0 reads with
  | (t1, false) => { trace := t1, status := Status.waiting, wd := wd }
  | (t1, true) =>
    let t2 := record t1 (Call.hubUnregisterEvent wd.id)
    let t3 := (perform conn t2 Call.connClose).1
    match wd.send.close with
    | none => { trace := t3, status := Status.panicked, wd := wd }
    | some c =>
      { trace := record t3 Call.closeSend, status := Status.returned,
        wd := { wd with send := c } }

/-- The calls of the teardown of `readPump`. -/
def Call.isTeardown : Call → Bool
  | Call.hubUnregisterEvent _ => true
  | Call.connClose => true
  | Call.closeSend => true
  | _ => false

/-- The error of a result of `conn.ReadMessage`. -/
def readErr : Except GoError Bytes → Option GoError
  | Except.ok _ => none
  | Except.error e => some e

/-! ## Inputs used in the examples -/

/-- A library for the examples: `json.Marshal` gives the bytes of `[]`, which is what it
gives on the empty slice, the only slice the examples push; `json.Unmarshal` decodes the
bytes of `{}` to the zero value and rejects everything else; `bytes.TrimSpace` is taken
on inputs without outer white space. -/
def libA : Lib :=
  { jsonMarshal := fun _ => Except.ok [91, 93],
    jsonUnmarshal := fun b =>
      if b = [123, 125] then Except.ok { DispatcherID := 0, SubscriptionEntries := [] }
      else Except.error "invalid character",
    trimSpace := fun b => b }

/-- A connection on which every call succeeds. -/
def okConn : Oracle := fun _ _ => none

/-- A connection on which `SetWriteDeadline` fails and every other call succeeds. -/
def noDeadlineConn : Oracle := fun _ c =>
  match c with
  | Call.connSetWriteDeadline _ => some "use of closed network connection"
  | _ => none

/-- A connection on which `Close` fails and every other call succeeds. -/
def noCloseConn : Oracle := fun _ c =>
  match c with
  | Call.connClose => some "use of closed network connection"
  | _ => none

/-- A dispatcher with id 7 whose queue holds 256 batches, each the bytes of `[]`. -/
def fullDispatcher : websocketDispatcher :=
  { id := 7, send := { buf := List.replicate 256 [91, 93], cap := 256, closed := false } }

/-- `PushEvents` called `n` times in a row with the empty slice, as long as it returns. -/
def pushEmpty (lib : Lib) : Nat → websocketDispatcher → Option websocketDispatcher
  | 0, wd => some wd
  | n + 1, wd =>
    match PushEvents lib wd [] with
    | PushResult.returned wd1 => pushEmpty lib n wd1
    | _ => none

end ws

namespace factory

/-! ## The lock-service factory -/

/-- The type `common.APIType`, a string. -/
abbrev APIType := String

/-- The part of `config.ConnectorApiConfig` the factory reads. -/
structure ConnectorApiConfig where
  CheckDuplicates : Bool
deriving DecidableEq, Repr

/-- The part of `config.GeneralConfig` the factory reads; `P` is the type of the `PubSub`
section, which is only handed on. -/
structure GeneralConfig (P : Type) where
  ConnectorApi : ConnectorApiConfig
  PubSub : P

/-- What `factory/redis.go` uses from other packages: the constant `common.WSAPIType` and the
two constructors of package `redis`, each returning a Go pair (value, error). `C` is the type
of the failover client, `W` of the Redlock wrapper. -/
structure Deps (P C W : Type) where
  WSAPIType : APIType
  CreateFailoverClient : P → C × Option GoError
  NewRedlockWrapper : C → W × Option GoError

/-- A non-nil lock service: the value of `disabled.NewDisabledRedlockWrapper()`, or a value
`redis.NewRedlockWrapper` returned. -/
inductive LockService (W : Type) where
  | disabledRedlockWrapper
  | redlockWrapper (w : W)
deriving DecidableEq, Repr

/-- A constructor call made by the factory. -/
inductive FactoryCall (P C : Type) where
  | NewDisabledRedlockWrapper
  | CreateFailoverClient (cfg : P)
  | NewRedlockWrapper (client : C)
deriving DecidableEq, Repr

/-- The result of `CreateLockService`: the pair returned (`none` is nil) and the constructor
calls made, in order. -/
structure Created (P C W : Type) where
  service : Option (LockService W)
  err : Option GoError
  calls : List (FactoryCall P C)

def CreateLockService {P C W : Type} (deps : Deps P C W) (apiType : APIType)
    (config : GeneralConfig P) : Created P C W :=
  if !config.ConnectorApi.CheckDuplicates || apiType == deps.WSAPIType then
    { service := some LockService.disabledRedlockWrapper, err := none,
      calls := [FactoryCall.NewDisabledRedlockWrapper] }
  else
    match deps.CreateFailoverClient config.PubSub with
    | (_, some err) =>
      { service := none, err := some err,
        calls := [FactoryCall.CreateFailoverClient config.PubSub] }
    | (redisClient, none) =>
      match deps.NewRedlockWrapper redisClient with
      | (_, some err) =>
        { service := none, err := some err,
          calls := [FactoryCall.CreateFailoverClient config.PubSub,
            FactoryCall.NewRedlockWrapper redisClient] }
      | (lockService, none) =>
        { service := some (LockService.redlockWrapper lockService), err := none,
          calls := [FactoryCall.CreateFailoverClient config.PubSub,
            FactoryCall.NewRedlockWrapper redisClient] }

/-! ### Inputs used in the examples -/

/-- Dependencies for the examples, with numbers for the configuration section, the client
and the wrapper: the client cannot be created for section 0, and the wrapper cannot be
built on client 1. -/
def depsA : Deps Nat Nat Nat :=
  { WSAPIType := "notifier",
    CreateFailoverClient := fun p => if p = 0 then (0, some "no sentinel") else (p, none),
    NewRedlockWrapper := fun c => if c = 1 then (0, some "nil client") else (c + 100, none) }

end factory

namespace notifier

open data

/-! ## The event notifier -/

def pushEventEndpoint : String := "/events/push"

/-- The table `hextable` of `encoding/hex`. -/
def hextable : List Char := "0123456789abcdef".toList

/-- The library function `hex.EncodeToString`: two table characters per byte, `v >> 4` then
`v & 0x0f`. -/
def EncodeToString (src : Bytes) : String :=
  String.mk (src.flatMap (fun v =>
    [hextable.getD (v.val >>> 4) '0', hextable.getD (v.val &&& 0x0f) '0']))

/-- What the getters of a non-nil `EventHandler` return. -/
structure LogEvent where
  Address : Bytes
  Identifier : Bytes
  Topics : List Bytes
  Data : Bytes
deriving DecidableEq, Repr

/-- An `EventHandler` value: `none` when its `IsInterfaceNil()` is true. -/
abbrev EventHandler := Option LogEvent

/-- A `LogHandler` value: `none` when its `IsInterfaceNil()` is true, else what
`GetLogEvents()` returns. -/
abbrev LogHandler := Option (List EventHandler)

/-- The part of the transactions pool `SaveBlock` reads: the values of `Logs`, in the order
in which `range` yields them. -/
structure Pool where
  Logs : List LogHandler
deriving DecidableEq, Repr

/-- The part of `indexer.ArgsSaveBlockData` that `SaveBlock` reads; `none` is the nil pool. -/
structure ArgsSaveBlockData where
  HeaderHash : Bytes
  TransactionsPool : Option Pool
deriving DecidableEq, Repr

/-- A call `en.httpClient.Post(endpoint, payload, nil)`. -/
structure Post where
  endpoint : String
  payload : BlockEvents
deriving DecidableEq, Repr

/-- The method `SaveBlock`, as the calls it makes on the HTTP client; `encode` is
`en.pubKeyConverter.Encode`.  The error `Post` returns is only logged. -/
def SaveBlock (encode : Bytes → String) (args : ArgsSaveBlockData) : List Post :=
  match args.TransactionsPool with
  | none => []
  | some pool =>
    let logEvents : List EventHandler := pool.Logs.foldl (fun logEvents handler =>
      match handler with
      | some events => logEvents ++ events
      | none => logEvents) []
    if logEvents.length = 0 then []
    else
      let events : List Event := logEvents.foldl (fun events eventHandler =>
        match eventHandler with
        | some e =>
          let bech32Address := encode e.Address
          let eventIdentifier := goString e.Identifier
          events ++ [{ Address := bech32Address, Identifier := eventIdentifier,
                       Topics := e.Topics, Data := e.Data }]
        | none => events) []
      let blockEvents : BlockEvents :=
        { Hash := EncodeToString args.HeaderHash, Events := events }
      [{ endpoint := pushEventEndpoint, payload := blockEvents }]

/-! ### The claim about `SaveBlock`, in its own words -/

/-- The log events collected from a pool: those of its non-nil handlers, handler after
handler, each handler's events in their own order. -/
def collectedLogEvents (pool : Pool) : List EventHandler :=
  pool.Logs.flatMap (fun handler => handler.getD [])

/-- The event made of one non-nil log event: the address encoded, the rest copied. -/
def eventOf (encode : Bytes → String) (e : LogEvent) : Event :=
  { Address := encode e.Address, Identifier := goString e.Identifier,
    Topics := e.Topics, Data := e.Data }

/-- The lowercase hexadecimal digit of a number below 16: `0` to `9`, then `a` to `f`. -/
def hexDigit (d : Nat) : Char :=
  Char.ofNat (if d < 10 then 48 + d else 87 + d)

/-- The lowercase hexadecimal encoding: for each byte the digit of its high half, then the
digit of its low half. -/
def lowerHex (src : Bytes) : String :=
  String.mk (src.flatMap (fun v => [hexDigit (v.val / 16), hexDigit (v.val % 16)]))

/-- What the claim says `SaveBlock` posts. -/
def SaveBlockClaimed (encode : Bytes → String) (args : ArgsSaveBlockData) : List Post :=
  match args.TransactionsPool with
  | none => []
  | some pool =>
    if collectedLogEvents pool = [] then []
    else
      [{ endpoint := "/events/push",
         payload :=
           { Hash := lowerHex args.HeaderHash,
             Events := ((collectedLogEvents pool).filterMap id).map (eventOf encode) } }]

/-! ### Inputs used in the examples -/

/-- An address encoder for the examples: the bytes as a string. -/
def plainEncode : Bytes → String := goString

/-- A block with three handlers, the second nil, and a nil event among the events. -/
def blockA : ArgsSaveBlockData :=
  { HeaderHash := [0, 171, 255],
    TransactionsPool := some
      { Logs :=
          [some [some { Address := [65], Identifier := [66], Topics := [[1]], Data := [2] },
                 none],
           none,
           some [some { Address := [67], Identifier := [68], Topics := [], Data := [] }]] } }

end notifier

/-! # Theorems -/

namespace ws

open data

/-! ## PushEvents -/

set_option maxRecDepth 100000 in
/-- The full dispatcher of the examples is what 256 calls of `PushEvents` leave of a new
dispatcher. -/
theorem fullDispatcher_reached :
    pushEmpty libA 256 (newWebsocketDispatcher 7) = some fullDispatcher := by
  decide

/-- The queue of the full dispatcher of the examples holds 256 batches. -/
theorem fullDispatcher_length : fullDispatcher.send.buf.length = 256 :=
  List.length_replicate 256 _

/-- A send on an open channel whose buffer is at capacity blocks. -/
theorem Chan.send_full (c : Chan) (v : Bytes) (hopen : c.closed = false)
    (hfull : c.buf.length = c.cap) : c.send v = SendResult.blocks := by
  simp [Chan.send, hopen, hfull]

/-- A send on a closed channel panics. -/
theorem Chan.send_closed (c : Chan) (v : Bytes) (hclosed : c.closed = true) :
    c.send v = SendResult.panics := by
  simp [Chan.send, hclosed]

/-- When the events encode and the send blocks, `PushEvents` blocks. -/
theorem PushEvents_of_send_blocks (lib : Lib) (wd : websocketDispatcher)
    (events : List Event) (eventBytes : Bytes)
    (hm : lib.jsonMarshal events = Except.ok eventBytes)
    (hs : wd.send.send eventBytes = SendResult.blocks) :
    PushEvents lib wd events = PushResult.blocked wd := by
  simp [PushEvents, hm, hs]

/-- When the events encode and the send panics, `PushEvents` panics. -/
theorem PushEvents_of_send_panics (lib : Lib) (wd : websocketDispatcher)
    (events : List Event) (eventBytes : Bytes)
    (hm : lib.jsonMarshal events = Except.ok eventBytes)
    (hs : wd.send.send eventBytes = SendResult.panics) :
    PushEvents lib wd events = PushResult.panicked := by
  simp [PushEvents, hm, hs]

/-- C1, as stated, fails: on a dispatcher whose queue holds 256 batches, `PushEvents` with
the empty slice (which encodes) does not return to its caller; the caller is suspended in the
send, and the dispatcher is as before. -/
theorem PushEvents_full_queue_not_returned :
    fullDispatcher.send.buf.length = 256 ∧ fullDispatcher.send.cap = 256 ∧
    fullDispatcher.send.closed = false ∧
    libA.jsonMarshal [] = Except.ok [91, 93] ∧
    PushEvents libA fullDispatcher [] = PushResult.blocked fullDispatcher ∧
    ¬ ∃ wd1, PushEvents libA fullDispatcher [] = PushResult.returned wd1 := by
  have hlen : fullDispatcher.send.buf.length = 256 := fullDispatcher_length
  have hs : fullDispatcher.send.send [91, 93] = SendResult.blocks :=
    Chan.send_full _ _ rfl hlen
  have h : PushEvents libA fullDispatcher [] = PushResult.blocked fullDispatcher :=
    PushEvents_of_send_blocks libA fullDispatcher [] [91, 93] rfl hs
  refine ⟨hlen, rfl, rfl, rfl, h, ?_⟩
  rintro ⟨wd1, h1⟩
  rw [h] at h1
  cases h1

/-- C1, amended: on every dispatcher whose open queue holds its full capacity of 256
batches, and for every events slice that encodes, `PushEvents` suspends its caller in the
send, leaving the dispatcher (queue contents, queue open) as it was. -/
theorem PushEvents_full_queue_blocks (lib : Lib) (wd : websocketDispatcher)
    (events : List Event) (eventBytes : Bytes)
    (hm : lib.jsonMarshal events = Except.ok eventBytes)
    (hcap : wd.send.cap = 256) (hlen : wd.send.buf.length = 256)
    (hopen : wd.send.closed = false) :
    PushEvents lib wd events = PushResult.blocked wd := by
  exact PushEvents_of_send_blocks lib wd events eventBytes hm
    (Chan.send_full _ _ hopen (by rw [hlen, hcap]))

/-- The amended C1 at the full dispatcher of the examples. -/
theorem PushEvents_full_queue_blocks_witness :
    PushEvents libA fullDispatcher [] = PushResult.blocked fullDispatcher :=
  PushEvents_full_queue_blocks libA fullDispatcher [] [91, 93] rfl rfl
    fullDispatcher_length rfl

/-- C2, as stated, fails: after `readPump` has hit a read error and run its teardown on a new
dispatcher, the queue is closed, and a later `PushEvents` with the empty slice (which
encodes) panics in the send instead of returning. -/
theorem PushEvents_after_teardown_panics :
    (readPump libA okConn (newWebsocketDispatcher 7) [Except.error "EOF"]).status
      = Status.returned ∧
    (readPump libA okConn (newWebsocketDispatcher 7) [Except.error "EOF"]).wd.send.closed
      = true ∧
    PushEvents libA (readPump libA okConn (newWebsocketDispatcher 7) [Except.error "EOF"]).wd []
      = PushResult.panicked := by
  refine ⟨rfl, rfl, rfl⟩

/-- C2, amended: on a torn-down dispatcher (queue closed) a later `PushEvents` never blocks
its caller; it returns, the dispatcher unchanged, when the events do not encode, and it
panics in the send on the closed queue when they encode. -/
theorem PushEvents_closed_queue (lib : Lib) (wd : websocketDispatcher) (events : List Event)
    (hclosed : wd.send.closed = true) :
    PushEvents lib wd events =
      (match lib.jsonMarshal events with
       | Except.error _ => PushResult.returned wd
       | Except.ok _ => PushResult.panicked) ∧
    ∀ wd1, PushEvents lib wd events ≠ PushResult.blocked wd1 := by
  have h : PushEvents lib wd events =
      (match lib.jsonMarshal events with
       | Except.error _ => PushResult.returned wd
       | Except.ok _ => PushResult.panicked) := by
    cases hm : lib.jsonMarshal events with
    | error e => simp [PushEvents, hm]
    | ok b => exact PushEvents_of_send_panics lib wd events b hm (Chan.send_closed _ _ hclosed)
  refine ⟨h, ?_⟩
  intro wd1 h1
  rw [h] at h1
  cases hm : lib.jsonMarshal events <;> simp [hm] at h1

/-- The amended C2 at the dispatcher `readPump` leaves after a read error. -/
theorem PushEvents_closed_queue_witness :
    PushEvents libA (readPump libA okConn (newWebsocketDispatcher 7) [Except.error "EOF"]).wd []
      = PushResult.panicked ∧
    ∀ wd1, PushEvents libA
      (readPump libA okConn (newWebsocketDispatcher 7) [Except.error "EOF"]).wd []
        ≠ PushResult.blocked wd1 :=
  PushEvents_closed_queue libA
    (readPump libA okConn (newWebsocketDispatcher 7) [Except.error "EOF"]).wd [] rfl

/-! ## writePump -/

/-- C3, the code at the failing input: on a connection where every call succeeds, when
`writePump` twice finds the queue closed and drained, it writes the close frame, then an
empty text frame, and stays in its loop, where it does the same again; it has not returned
and has not closed the connection. -/
theorem writePump_closed_queue_keeps_writing :
    writePump okConn [SelectCase.recv none, SelectCase.recv none] =
      { trace :=
          [{ call := Call.newTicker 54000000000, err := none },
           { call := Call.connSetWriteDeadline 10000000000, err := none },
           { call := Call.connWriteMessage CloseMessage [], err := none },
           { call := Call.connNextWriter TextMessage, err := none },
           { call := Call.writerWrite [], err := none },
           { call := Call.writerClose, err := none },
           { call := Call.connSetWriteDeadline 10000000000, err := none },
           { call := Call.connWriteMessage CloseMessage [], err := none },
           { call := Call.connNextWriter TextMessage, err := none },
           { call := Call.writerWrite [], err := none },
           { call := Call.writerClose, err := none }],
        status := Status.waiting } := by
  decide

/-- C7, the code at the failing inputs: on a connection whose `SetWriteDeadline` fails, a
tick of the ticker still writes the ping frame, right after the failed call; and on a
connection where every call succeeds, the closed and drained queue makes `writePump` write a
close frame and a text frame after a single `SetWriteDeadline`. -/
theorem writePump_writes_without_deadline :
    writePump noDeadlineConn [SelectCase.tick] =
      { trace :=
          [{ call := Call.newTicker 54000000000, err := none },
           { call := Call.connSetWriteDeadline 10000000000,
             err := some "use of closed network connection" },
           { call := Call.connWriteMessage PingMessage [], err := none }],
        status := Status.waiting } ∧
    writePump okConn [SelectCase.recv none] =
      { trace :=
          [{ call := Call.newTicker 54000000000, err := none },
           { call := Call.connSetWriteDeadline 10000000000, err := none },
           { call := Call.connWriteMessage CloseMessage [], err := none },
           { call := Call.connNextWriter TextMessage, err := none },
           { call := Call.writerWrite [], err := none },
           { call := Call.writerClose, err := none }],
        status := Status.waiting } := by
  decide

/-! ## Timing constants -/

/-- C9: `pingPeriod` is exactly 9/10 of `pongWait` (the division by 10 leaves no remainder),
is positive and smaller than `pongWait`, both fit a 64-bit `time.Duration`; `pongWait` is the
delay `setSocketReadLimits` gives the read deadline and the pong handler, so measured from
the same instant the ping falls due before the read deadline. -/
theorem pingPeriod_nine_tenths_of_pongWait :
    pingPeriod * 10 = pongWait * 9 ∧ (pongWait * 9) % 10 = 0 ∧
    0 < pingPeriod ∧ pingPeriod < pongWait ∧ pongWait * 9 < 2 ^ 63 ∧
    (∀ conn : Oracle, (setSocketReadLimits conn []).1.map Entry.call =
      Call.connSetReadLimit maxMsgSize :: Call.connSetReadDeadline pongWait ::
        (if conn [{ call := Call.connSetReadLimit maxMsgSize, err := none }]
            (Call.connSetReadDeadline pongWait) = none
         then [Call.connSetPongHandler pongWait] else [])) ∧
    (∀ now : Int, now + pingPeriod < now + pongWait) := by
  refine ⟨by decide, by decide, by decide, by decide, by decide, ?_, ?_⟩
  · intro conn
    cases h : conn [{ call := Call.connSetReadLimit maxMsgSize, err := none }]
        (Call.connSetReadDeadline pongWait) <;>
      simp [setSocketReadLimits, perform, record, h]
  · intro now
    have : pingPeriod < pongWait := by decide
    omega

/-! ## readPump -/

/-- Successful reads leave the loop going. -/
theorem readLoop_ok_waiting (lib : Lib) (wd : websocketDispatcher) :
    ∀ (pre : List Bytes) (t : Trace), (readLoop lib wd t (pre.map Except.ok)).2 = false
  | [], t => by simp [readLoop]
  | m :: pre, t => by
    simp only [List.map_cons, readLoop]
    exact readLoop_ok_waiting lib wd pre _

/-- After successful reads the loop goes on from the trace they leave. -/
theorem readLoop_ok_append (lib : Lib) (wd : websocketDispatcher) :
    ∀ (pre : List Bytes) (t : Trace) (rest : List (Except GoError Bytes)),
      readLoop lib wd t (pre.map Except.ok ++ rest) =
        readLoop lib wd (readLoop lib wd t (pre.map Except.ok)).1 rest
  | [], t, rest => by simp [readLoop]
  | m :: pre, t, rest => by
    simp only [List.map_cons, List.cons_append, readLoop]
    exact readLoop_ok_append lib wd pre _ rest

/-- Handling a message only adds to the trace. -/
theorem trySendSubscribeEvent_extends (lib : Lib) (wd : websocketDispatcher) (b : Bytes)
    (t : Trace) : t <+: trySendSubscribeEvent lib wd b t := by
  unfold trySendSubscribeEvent
  split
  · exact List.prefix_refl t
  · exact List.prefix_append t _

/-- The loop only adds to the trace. -/
theorem readLoop_extends (lib : Lib) (wd : websocketDispatcher) :
    ∀ (reads : List (Except GoError Bytes)) (t : Trace), t <+: (readLoop lib wd t reads).1
  | [], t => by simp [readLoop]
  | Except.error e :: _, t => by simp [readLoop]
  | Except.ok m :: rest, t => by
    simp only [readLoop]
    exact ((List.prefix_append t _).trans (trySendSubscribeEvent_extends lib wd _ _)).trans
      (readLoop_extends lib wd rest _)

/-- What `readPump` is when its loop is still going. -/
theorem readPump_of_loop_waiting (lib : Lib) (conn : Oracle) (wd : websocketDispatcher)
    (reads : List (Except GoError Bytes)) (t1 : Trace)
    (h : readLoop lib wd (setSocketReadLimits conn []).1 reads = (t1, false)) :
    readPump lib conn wd reads = { trace := t1, status := Status.waiting, wd := wd } := by
  simp [readPump, h]

/-- What `readPump` is when its loop was left and the queue is open. -/
theorem readPump_of_loop_left (lib : Lib) (conn : Oracle) (wd : websocketDispatcher)
    (reads : List (Except GoError Bytes)) (t1 : Trace)
    (h : readLoop lib wd (setSocketReadLimits conn []).1 reads = (t1, true))
    (hopen : wd.send.closed = false) :
    readPump lib conn wd reads =
      { trace := t1 ++
          [{ call := Call.hubUnregisterEvent wd.id, err := none },
           { call := Call.connClose,
             err := conn (t1 ++ [{ call := Call.hubUnregisterEvent wd.id, err := none }])
               Call.connClose },
           { call := Call.closeSend, err := none }],
        status := Status.returned,
        wd := { wd with send := { wd.send with closed := true } } } := by
  simp [readPump, h, Chan.close, hopen, perform, record]

/-- The trace of `readPump` starts with the trace of its loop. -/
theorem readPump_trace_extends (lib : Lib) (conn : Oracle) (wd : websocketDispatcher)
    (reads : List (Except GoError Bytes)) :
    (readLoop lib wd (setSocketReadLimits conn []).1 reads).1 <+:
      (readPump lib conn wd reads).trace := by
  rcases h : readLoop lib wd (setSocketReadLimits conn []).1 reads with ⟨t1, b⟩
  cases b
  · simp [readPump, h]
  · cases hc : wd.send.close with
    | none => simp [readPump, h, hc, perform, record]
    | some c => simp [readPump, h, hc, perform, record]

/-- While all reads succeed, `readPump` is in its loop, with the trace of the loop. -/
theorem readPump_ok (lib : Lib) (conn : Oracle) (wd : websocketDispatcher)
    (pre : List Bytes) :
    readPump lib conn wd (pre.map Except.ok) =
      { trace := (readLoop lib wd (setSocketReadLimits conn []).1 (pre.map Except.ok)).1,
        status := Status.waiting, wd := wd } :=
  readPump_of_loop_waiting lib conn wd _ _
    (Prod.ext rfl (readLoop_ok_waiting lib wd pre _))

/-- The calls of `setSocketReadLimits` are no teardown calls. -/
theorem setSocketReadLimits_noTeardown (conn : Oracle) :
    ∀ x ∈ (setSocketReadLimits conn []).1, x.call.isTeardown = false := by
  intro x hx
  cases h : conn [{ call := Call.connSetReadLimit maxMsgSize, err := none }]
      (Call.connSetReadDeadline pongWait) with
  | none =>
    simp [setSocketReadLimits, perform, record, h] at hx
    rcases hx with hx | hx | hx <;> subst hx <;> rfl
  | some e =>
    simp [setSocketReadLimits, perform, record, h] at hx
    rcases hx with hx | hx <;> subst hx <;> rfl

/-- Successful reads add no teardown call to the trace. -/
theorem readLoop_ok_noTeardown (lib : Lib) (wd : websocketDispatcher) :
    ∀ (pre : List Bytes) (t : Trace), (∀ x ∈ t, x.call.isTeardown = false) →
      ∀ x ∈ (readLoop lib wd t (pre.map Except.ok)).1, x.call.isTeardown = false
  | [], t, ht => by simpa [readLoop] using ht
  | m :: pre, t, ht => by
    simp only [List.map_cons, readLoop]
    apply readLoop_ok_noTeardown lib wd pre
    intro x hx
    unfold trySendSubscribeEvent at hx
    split at hx
    · rcases List.mem_append.1 hx with h | h
      · exact ht x h
      · simp at h; subst h; rfl
    · simp only [record, List.mem_append, List.mem_singleton] at hx
      rcases hx with (h | h) | h
      · exact ht x h
      · subst h; rfl
      · subst h; rfl

/-- One successful read whose message decodes: the read, then one `hub.Subscribe`. -/
theorem readLoop_decoded (lib : Lib) (wd : websocketDispatcher) (t : Trace) (msg : Bytes)
    (rest : List (Except GoError Bytes)) (ev : SubscribeEvent)
    (hdec : lib.jsonUnmarshal (lib.trimSpace (bytesReplace msg newline space)) = Except.ok ev) :
    readLoop lib wd t (Except.ok msg :: rest) =
      readLoop lib wd (t ++
        [{ call := Call.connReadMessage, err := none },
         { call := Call.hubSubscribe
             { DispatcherID := wd.id, SubscriptionEntries := ev.SubscriptionEntries },
           err := none }]) rest := by
  simp [readLoop, trySendSubscribeEvent, hdec, record]

/-- One successful read whose message does not decode: the read only. -/
theorem readLoop_undecoded (lib : Lib) (wd : websocketDispatcher) (t : Trace) (msg : Bytes)
    (rest : List (Except GoError Bytes)) (e : GoError)
    (hdec : lib.jsonUnmarshal (lib.trimSpace (bytesReplace msg newline space))
      = Except.error e) :
    readLoop lib wd t (Except.ok msg :: rest) =
      readLoop lib wd (t ++ [{ call := Call.connReadMessage, err := none }]) rest := by
  simp [readLoop, trySendSubscribeEvent, hdec]

/-- The next read is the next call of the loop. -/
theorem readLoop_next_read (lib : Lib) (wd : websocketDispatcher) (t : Trace)
    (r : Except GoError Bytes) (rest : List (Except GoError Bytes)) :
    (t ++ [{ call := Call.connReadMessage, err := readErr r }]) <+:
      (readLoop lib wd t (r :: rest)).1 := by
  cases r with
  | error e => simp [readLoop, readErr]
  | ok m =>
    simp only [readLoop, readErr]
    exact (trySendSubscribeEvent_extends lib wd _ _).trans (readLoop_extends lib wd rest _)

/-- C4: when `readPump`, after any number of successful reads, reads a message whose
normalised bytes decode to `ev`, it makes exactly one call after the read, namely
`hub.Subscribe` with the id of this dispatcher (`GetID`) and the decoded entries of `ev`,
whatever id `ev` carried; and every longer run starts with that trace. -/
theorem readPump_subscribes_with_own_id (lib : Lib) (conn : Oracle)
    (wd : websocketDispatcher) (pre : List Bytes) (msg : Bytes)
    (rest : List (Except GoError Bytes)) (ev : SubscribeEvent)
    (hdec : lib.jsonUnmarshal (lib.trimSpace (bytesReplace msg newline space)) = Except.ok ev) :
    (readPump lib conn wd (pre.map Except.ok ++ [Except.ok msg])).trace =
      (readPump lib conn wd (pre.map Except.ok)).trace ++
        [{ call := Call.connReadMessage, err := none },
         { call := Call.hubSubscribe
             { DispatcherID := GetID wd, SubscriptionEntries := ev.SubscriptionEntries },
           err := none }] ∧
    ((readPump lib conn wd (pre.map Except.ok)).trace ++
        [{ call := Call.connReadMessage, err := none },
         { call := Call.hubSubscribe
             { DispatcherID := GetID wd, SubscriptionEntries := ev.SubscriptionEntries },
           err := none }]) <+:
      (readPump lib conn wd (pre.map Except.ok ++ Except.ok msg :: rest)).trace := by
  have hloop : ∀ rest1, readLoop lib wd (setSocketReadLimits conn []).1
      (pre.map Except.ok ++ Except.ok msg :: rest1) =
      readLoop lib wd ((readPump lib conn wd (pre.map Except.ok)).trace ++
        [{ call := Call.connReadMessage, err := none },
         { call := Call.hubSubscribe
             { DispatcherID := GetID wd, SubscriptionEntries := ev.SubscriptionEntries },
           err := none }]) rest1 := by
    intro rest1
    rw [readLoop_ok_append, readLoop_decoded lib wd _ msg rest1 ev hdec, readPump_ok]
    rfl
  constructor
  · rw [readPump_of_loop_waiting lib conn wd _ _ (by rw [hloop []]; rfl)]
  · have h := readPump_trace_extends lib conn wd (pre.map Except.ok ++ Except.ok msg :: rest)
    rw [hloop rest] at h
    exact (readLoop_extends lib wd rest _).trans h

/-- C4 at an example: the message `{}` read after an undecodable one, on dispatcher 7. -/
theorem readPump_subscribes_with_own_id_witness :
    (readPump libA okConn (newWebsocketDispatcher 7)
        ([[1]].map Except.ok ++ [Except.ok [123, 125]])).trace =
      (readPump libA okConn (newWebsocketDispatcher 7) ([[1]].map Except.ok)).trace ++
        [{ call := Call.connReadMessage, err := none },
         { call := Call.hubSubscribe
             { DispatcherID := GetID (newWebsocketDispatcher 7), SubscriptionEntries := [] },
           err := none }] ∧
    ((readPump libA okConn (newWebsocketDispatcher 7) ([[1]].map Except.ok)).trace ++
        [{ call := Call.connReadMessage, err := none },
         { call := Call.hubSubscribe
             { DispatcherID := GetID (newWebsocketDispatcher 7), SubscriptionEntries := [] },
           err := none }]) <+:
      (readPump libA okConn (newWebsocketDispatcher 7)
        ([[1]].map Except.ok ++ Except.ok [123, 125] :: [Except.error "EOF"])).trace :=
  readPump_subscribes_with_own_id libA okConn (newWebsocketDispatcher 7) [[1]] [123, 125]
    [Except.error "EOF"] { DispatcherID := 0, SubscriptionEntries := [] } rfl

/-- C5: when `readPump`, after any number of successful reads, reads a message whose
normalised bytes do not decode, the read is all that is added to the trace (no call on the
hub, no close of the connection or of the queue), the pump is still in its loop with the
dispatcher unchanged, and its next call is the next `conn.ReadMessage`. -/
theorem readPump_drops_undecodable (lib : Lib) (conn : Oracle) (wd : websocketDispatcher)
    (pre : List Bytes) (msg : Bytes) (e : GoError)
    (hdec : lib.jsonUnmarshal (lib.trimSpace (bytesReplace msg newline space))
      = Except.error e) :
    readPump lib conn wd (pre.map Except.ok ++ [Except.ok msg]) =
      { trace := (readPump lib conn wd (pre.map Except.ok)).trace ++
          [{ call := Call.connReadMessage, err := none }],
        status := Status.waiting, wd := wd } ∧
    ∀ (r : Except GoError Bytes) (rest : List (Except GoError Bytes)),
      ((readPump lib conn wd (pre.map Except.ok)).trace ++
          [{ call := Call.connReadMessage, err := none },
           { call := Call.connReadMessage, err := readErr r }]) <+:
        (readPump lib conn wd (pre.map Except.ok ++ Except.ok msg :: r :: rest)).trace := by
  have hloop : ∀ rest1, readLoop lib wd (setSocketReadLimits conn []).1
      (pre.map Except.ok ++ Except.ok msg :: rest1) =
      readLoop lib wd ((readPump lib conn wd (pre.map Except.ok)).trace ++
        [{ call := Call.connReadMessage, err := none }]) rest1 := by
    intro rest1
    rw [readLoop_ok_append, readLoop_undecoded lib wd _ msg rest1 e hdec, readPump_ok]
  constructor
  · rw [readPump_of_loop_waiting lib conn wd _ _ (by rw [hloop []]; rfl)]
  · intro r rest
    have h := readPump_trace_extends lib conn wd
      (pre.map Except.ok ++ Except.ok msg :: r :: rest)
    rw [hloop (r :: rest)] at h
    have h2 := readLoop_next_read lib wd ((readPump lib conn wd (pre.map Except.ok)).trace ++
        [{ call := Call.connReadMessage, err := none }]) r rest
    rw [List.append_assoc] at h2
    exact h2.trans h

/-- C5 at an example: the one-byte message 1 read after the message `{}`, on dispatcher 7. -/
theorem readPump_drops_undecodable_witness :
    readPump libA okConn (newWebsocketDispatcher 7)
        ([[123, 125]].map Except.ok ++ [Except.ok [1]]) =
      { trace := (readPump libA okConn (newWebsocketDispatcher 7)
            ([[123, 125]].map Except.ok)).trace ++
          [{ call := Call.connReadMessage, err := none }],
        status := Status.waiting, wd := newWebsocketDispatcher 7 } ∧
    ∀ (r : Except GoError Bytes) (rest : List (Except GoError Bytes)),
      ((readPump libA okConn (newWebsocketDispatcher 7)
            ([[123, 125]].map Except.ok)).trace ++
          [{ call := Call.connReadMessage, err := none },
           { call := Call.connReadMessage, err := readErr r }]) <+:
        (readPump libA okConn (newWebsocketDispatcher 7)
          ([[123, 125]].map Except.ok ++ Except.ok [1] :: r :: rest)).trace :=
  readPump_drops_undecodable libA okConn (newWebsocketDispatcher 7) [[123, 125]] [1]
    "invalid character" rfl

/-- C6: in a run of `readPump` on a dispatcher whose queue is open, the first read error,
whatever it is, ends the run: after the failed read come `hub.UnregisterEvent` for this
dispatcher, `conn.Close` and the closing of the queue, each once, in this order, and
nothing more; the queue is closed whatever `conn.Close` returned; and before the read
error the pump is in its loop and has made no teardown call. -/
theorem readPump_teardown_on_read_error (lib : Lib) (conn : Oracle)
    (wd : websocketDispatcher) (pre : List Bytes) (innerErr : GoError)
    (rest : List (Except GoError Bytes)) (hopen : wd.send.closed = false) :
    readPump lib conn wd (pre.map Except.ok ++ Except.error innerErr :: rest) =
      { trace := (readPump lib conn wd (pre.map Except.ok)).trace ++
          [{ call := Call.connReadMessage, err := some innerErr },
           { call := Call.hubUnregisterEvent (GetID wd), err := none },
           { call := Call.connClose,
             err := conn ((readPump lib conn wd (pre.map Except.ok)).trace ++
               [{ call := Call.connReadMessage, err := some innerErr },
                { call := Call.hubUnregisterEvent (GetID wd), err := none }])
               Call.connClose },
           { call := Call.closeSend, err := none }],
        status := Status.returned,
        wd := { wd with send := { wd.send with closed := true } } } ∧
    (readPump lib conn wd (pre.map Except.ok)).status = Status.waiting ∧
    ∀ x ∈ (readPump lib conn wd (pre.map Except.ok)).trace, x.call.isTeardown = false := by
  refine ⟨?_, ?_, ?_⟩
  · have hloop : readLoop lib wd (setSocketReadLimits conn []).1
        (pre.map Except.ok ++ Except.error innerErr :: rest) =
        ((readPump lib conn wd (pre.map Except.ok)).trace ++
          [{ call := Call.connReadMessage, err := some innerErr }], true) := by
      rw [readLoop_ok_append, readPump_ok]
      rfl
    rw [readPump_of_loop_left lib conn wd _ _ hloop hopen]
    simp [GetID]
  · rw [readPump_ok]
  · rw [readPump_ok]
    exact readLoop_ok_noTeardown lib wd pre _ (setSocketReadLimits_noTeardown conn)

/-- C6 at an example: a read error after one message, on a connection whose `Close`
fails. -/
theorem readPump_teardown_on_read_error_witness :
    readPump libA noCloseConn (newWebsocketDispatcher 7)
        ([[123, 125]].map Except.ok ++ Except.error "EOF" :: []) =
      { trace :=
          [{ call := Call.connSetReadLimit 1048576, err := none },
           { call := Call.connSetReadDeadline 60000000000, err := none },
           { call := Call.connSetPongHandler 60000000000, err := none },
           { call := Call.connReadMessage, err := none },
           { call := Call.hubSubscribe { DispatcherID := 7, SubscriptionEntries := [] },
             err := none },
           { call := Call.connReadMessage, err := some "EOF" },
           { call := Call.hubUnregisterEvent 7, err := none },
           { call := Call.connClose, err := some "use of closed network connection" },
           { call := Call.closeSend, err := none }],
        status := Status.returned,
        wd := { id := 7, send := { buf := [], cap := 256, closed := true } } } :=
  (readPump_teardown_on_read_error libA noCloseConn (newWebsocketDispatcher 7) [[123, 125]]
    "EOF" [] rfl).1

end ws

namespace factory

/-- The factory on the examples: disabled for the websocket API type and when duplicates
are not checked; else the wrapper, or the error of the constructor that failed. -/
theorem CreateLockService_examples :
    (CreateLockService depsA "notifier" { ConnectorApi := ⟨true⟩, PubSub := 5 }).service
      = some LockService.disabledRedlockWrapper ∧
    (CreateLockService depsA "rabbit-api" { ConnectorApi := ⟨false⟩, PubSub := 5 }).service
      = some LockService.disabledRedlockWrapper ∧
    (CreateLockService depsA "rabbit-api" { ConnectorApi := ⟨true⟩, PubSub := 5 }).service
      = some (LockService.redlockWrapper 105) ∧
    (CreateLockService depsA "rabbit-api" { ConnectorApi := ⟨true⟩, PubSub := 0 }).err
      = some "no sentinel" ∧
    (CreateLockService depsA "rabbit-api" { ConnectorApi := ⟨true⟩, PubSub := 1 }).err
      = some "nil client" := by
  decide

/-- C8: `CreateLockService` returns the disabled lock service exactly when
`CheckDuplicates` is false or the API type is the websocket one, and then with a nil error
and a single constructor call, that of the disabled service; in every other case it calls
`CreateFailoverClient` and returns either the wrapper `NewRedlockWrapper` built on the
client it got, with a nil error, or a nil service with the error of the constructor that
failed. -/
theorem CreateLockService_disabled_iff {P C W : Type} (deps : Deps P C W)
    (apiType : APIType) (config : GeneralConfig P) :
    ((CreateLockService deps apiType config).service
        = some LockService.disabledRedlockWrapper ↔
      (config.ConnectorApi.CheckDuplicates = false ∨ apiType = deps.WSAPIType)) ∧
    ((config.ConnectorApi.CheckDuplicates = false ∨ apiType = deps.WSAPIType) →
      (CreateLockService deps apiType config).err = none ∧
      (CreateLockService deps apiType config).calls
        = [FactoryCall.NewDisabledRedlockWrapper]) ∧
    (¬ (config.ConnectorApi.CheckDuplicates = false ∨ apiType = deps.WSAPIType) →
      ((deps.CreateFailoverClient config.PubSub).2 = none ∧
        (deps.NewRedlockWrapper (deps.CreateFailoverClient config.PubSub).1).2 = none ∧
        (CreateLockService deps apiType config).service = some (LockService.redlockWrapper
          (deps.NewRedlockWrapper (deps.CreateFailoverClient config.PubSub).1).1) ∧
        (CreateLockService deps apiType config).err = none ∧
        (CreateLockService deps apiType config).calls =
          [FactoryCall.CreateFailoverClient config.PubSub,
           FactoryCall.NewRedlockWrapper (deps.CreateFailoverClient config.PubSub).1]) ∨
      (∃ e, (deps.CreateFailoverClient config.PubSub).2 = some e ∧
        (CreateLockService deps apiType config).service = none ∧
        (CreateLockService deps apiType config).err = some e ∧
        (CreateLockService deps apiType config).calls =
          [FactoryCall.CreateFailoverClient config.PubSub]) ∨
      (∃ e, (deps.CreateFailoverClient config.PubSub).2 = none ∧
        (deps.NewRedlockWrapper (deps.CreateFailoverClient config.PubSub).1).2 = some e ∧
        (CreateLockService deps apiType config).service = none ∧
        (CreateLockService deps apiType config).err = some e)) := by
  by_cases hc : config.ConnectorApi.CheckDuplicates = false ∨ apiType = deps.WSAPIType
  · have hb : (!config.ConnectorApi.CheckDuplicates || apiType == deps.WSAPIType) = true := by
      rcases hc with h | h <;> simp [h]
    simp [CreateLockService, hb, hc]
  · have hb : (!config.ConnectorApi.CheckDuplicates || apiType == deps.WSAPIType) = false := by
      simp only [not_or] at hc
      simp [hc.1, hc.2]
    rcases h1 : deps.CreateFailoverClient config.PubSub with ⟨client, e1⟩
    cases e1 with
    | some e => simp [CreateLockService, hb, hc, h1]
    | none =>
      rcases h2 : deps.NewRedlockWrapper client with ⟨w, e2⟩
      cases e2 with
      | some e => simp [CreateLockService, hb, hc, h1, h2]
      | none => simp [CreateLockService, hb, hc, h1, h2]

end factory

namespace notifier

open data

/-- The loop over the handlers appends, to what was collected, the events of the non-nil
handlers. -/
theorem collect_foldl (logs : List LogHandler) :
    ∀ acc : List EventHandler,
      logs.foldl (fun logEvents handler =>
        match handler with
        | some events => logEvents ++ events
        | none => logEvents) acc = acc ++ logs.flatMap (fun handler => handler.getD []) := by
  induction logs with
  | nil => intro acc; simp
  | cons h logs ih =>
    intro acc
    cases h with
    | none => simp [ih]
    | some events => simp [ih]

/-- The loop over the log events appends the events of the non-nil ones. -/
theorem events_foldl (encode : Bytes → String) (logEvents : List EventHandler) :
    ∀ acc : List Event,
      logEvents.foldl (fun events eventHandler =>
        match eventHandler with
        | some e =>
          events ++ [{ Address := encode e.Address, Identifier := goString e.Identifier,
                       Topics := e.Topics, Data := e.Data }]
        | none => events) acc
        = acc ++ (logEvents.filterMap id).map (eventOf encode) := by
  induction logEvents with
  | nil => intro acc; simp
  | cons h logEvents ih =>
    intro acc
    cases h with
    | none => simp [ih]
    | some e => simp [ih, eventOf]

set_option maxRecDepth 100000 in
/-- The two table characters of a byte are its two lowercase hexadecimal digits. -/
theorem hextable_digits :
    ∀ v : Fin 256,
      [hextable.getD (v.val >>> 4) '0', hextable.getD (v.val &&& 0x0f) '0'] =
        [hexDigit (v.val / 16), hexDigit (v.val % 16)] := by
  decide

/-- The library encoding is the lowercase hexadecimal encoding. -/
theorem EncodeToString_eq_lowerHex (src : Bytes) : EncodeToString src = lowerHex src := by
  unfold EncodeToString lowerHex
  congr 1
  exact congrArg (fun f => src.flatMap f) (funext hextable_digits)

/-- The notifier on the example block: one post, the nil handler and the nil event left out,
the other events in order. -/
theorem SaveBlock_blockA :
    SaveBlock plainEncode blockA =
      [{ endpoint := "/events/push",
         payload :=
           { Hash := "00abff",
             Events :=
               [{ Address := "A", Identifier := "B", Topics := [[1]], Data := [2] },
                { Address := "C", Identifier := "D", Topics := [], Data := [] }] } }] := by
  decide

/-- The notifier on a block whose only log event is nil: one post, without events. -/
theorem SaveBlock_only_nil_event :
    SaveBlock plainEncode
        { HeaderHash := [16], TransactionsPool := some { Logs := [some [none]] } } =
      [{ endpoint := "/events/push", payload := { Hash := "10", Events := [] } }] := by
  decide

/-- C10: `SaveBlock` posts what the claim says: nothing when the pool is nil or the non-nil
handlers contribute no log events; otherwise one `BlockEvents` to `/events/push`, with the
lowercase hexadecimal encoding of the header hash and one event per non-nil collected log
event, in collection order, the address encoded and identifier, topics and data copied. -/
theorem SaveBlock_eq_claimed (encode : Bytes → String) (args : ArgsSaveBlockData) :
    SaveBlock encode args = SaveBlockClaimed encode args := by
  unfold SaveBlock SaveBlockClaimed
  cases args.TransactionsPool with
  | none => rfl
  | some pool =>
    simp only [collect_foldl, events_foldl, List.nil_append, collectedLogEvents,
      EncodeToString_eq_lowerHex, pushEventEndpoint, List.length_eq_zero]

end notifier
